import Mathlib

/-!
# Verification of the ShotAPI SDK request pipeline

Shallow embedding of the ShotAPI TypeScript SDK (repository
`gaurav-aryal/shotapi-sdk`).  The repository ships two near-duplicate
generations of the SDK class: a first generation in `src/src/index.ts`
(together with `types.ts`) and a second generation embedded in
`src/README.md` after the document separator.  The second generation is
the one the specification describes (it alone carries the validation
error codes, the chunked batch coordinator with pacing, and the
status-before-parse executor), so it is the primary model here; the
first generation's parameter builder is also embedded (as
`buildParamsLegacy`) to document where the two generations diverge.

Conventions of the embedding:
* JavaScript numbers that the claims exercise are modelled as `Int`
  (option fields) or `Nat` (statuses, counters, milliseconds).
* The fractional preset scale `2.625` of `pixel-7` is stored in
  thousandths (`scaleMilli`), with `milliToString` reproducing the
  JavaScript `Number.toString` rendering.
* A JavaScript `undefined` option is `Option.none`; string options use
  `""` for absent since only truthiness is ever tested on them.
* `URLSearchParams` is a `List (String × String)`; `URLSearchParams.set`
  is `setParam`, which overwrites an existing key in place or appends.
-/

/-- Record stored in the `DEVICE_PRESETS` table of both generations.
`scaleMilli` is the device scale factor in thousandths, so the
JavaScript number `2.625` is `2625`. -/
structure DevicePresetConfig where
  width : Nat
  height : Nat
  mobile : Bool
  scaleMilli : Nat
deriving DecidableEq, Repr

/-- The `DEVICE_PRESETS` table (`src/src/index.ts` lines 32-44; the
second generation repeats it verbatim). -/
def DEVICE_PRESETS : List (String × DevicePresetConfig) :=
  [ ("desktop", ⟨1920, 1080, false, 1000⟩)
  , ("laptop", ⟨1366, 768, false, 1000⟩)
  , ("tablet", ⟨768, 1024, true, 2000⟩)
  , ("mobile", ⟨375, 812, true, 3000⟩)
  , ("iphone-14", ⟨390, 844, true, 3000⟩)
  , ("iphone-14-pro", ⟨393, 852, true, 3000⟩)
  , ("iphone-14-pro-max", ⟨430, 932, true, 3000⟩)
  , ("ipad", ⟨810, 1080, true, 2000⟩)
  , ("ipad-pro", ⟨1024, 1366, true, 2000⟩)
  , ("galaxy-s23", ⟨360, 780, true, 3000⟩)
  , ("pixel-7", ⟨412, 915, true, 2625⟩) ]

/-- `DEVICE_PRESETS[device]`: lookup of a device name in the table. -/
def lookupPreset (device : String) : Option DevicePresetConfig :=
  match DEVICE_PRESETS.find? (fun p => p.1 = device) with
  | some p => some p.2
  | none => none

/-- Output format union `'png' | 'jpeg' | 'webp' | 'pdf'` from `types.ts`. -/
inductive ImageFormat where
  | png
  | jpeg
  | webp
  | pdf
deriving DecidableEq, Repr

/-- Wire spelling of an `ImageFormat`. -/
def formatToString : ImageFormat → String
  | .png => "png"
  | .jpeg => "jpeg"
  | .webp => "webp"
  | .pdf => "pdf"

/-- `ScreenshotOptions` from `types.ts`.  Numeric fields are `Option Int`
(`none` is JavaScript `undefined`); `device` and the free-form string
options use `""` for absent, since the code only ever tests their
truthiness; boolean options default to `false` like a falsy `undefined`. -/
structure ScreenshotOptions where
  url : String := ""
  width : Option Int := none
  height : Option Int := none
  device : String := ""
  fullPage : Bool := false
  format : Option ImageFormat := none
  quality : Option Int := none
  scale : Option Int := none
  delay : Option Int := none
  waitForSelector : String := ""
  selector : String := ""
  css : String := ""
  js : String := ""
  blockAds : Bool := false
  hideCookieBanners : Bool := false
  darkMode : Bool := false
  mobile : Bool := false
  thumbnailWidth : Option Int := none
deriving DecidableEq, Repr

/-- JavaScript truthiness of an optional number: present and nonzero. -/
def optNumTruthy : Option Int → Bool
  | some n => n ≠ 0
  | none => false

/-- Decimal rendering of an optional number (only used when truthy). -/
def optNumStr : Option Int → String
  | some n => toString n
  | none => ""

/-- Wire spelling of an optional format (only used when present). -/
def optFormatStr : Option ImageFormat → String
  | some f => formatToString f
  | none => ""

/-- Three-digit zero padding of a fractional part below 1000. -/
def pad3 (n : Nat) : String :=
  if n < 10 then "00" ++ toString n
  else if n < 100 then "0" ++ toString n
  else toString n

/-- `Number.toString` for a value stored in thousandths: `3000 ↦ "3"`,
`2625 ↦ "2.625"`. -/
def milliToString (n : Nat) : String :=
  let ip := n / 1000
  let fr := n % 1000
  if fr = 0 then toString ip
  else toString ip ++ "." ++ String.mk (((pad3 fr).toList.reverse.dropWhile (fun c => c = '0')).reverse)

/-- `URLSearchParams.set`: overwrite the value of an existing key in
place, or append the pair at the end. -/
def setParam (ps : List (String × String)) (k v : String) : List (String × String) :=
  if ps.any (fun p => p.1 = k) then
    ps.map (fun p => if p.1 = k then (k, v) else p)
  else
    ps ++ [(k, v)]

/-- The TypeScript idiom `if (cond) params.set(k, v)`. -/
def setIf (c : Bool) (ps : List (String × String)) (k v : String) : List (String × String) :=
  if c then setParam ps k v else ps

/-- First value bound to a key in a parameter list. -/
def getParam (ps : List (String × String)) (k : String) : Option String :=
  match ps with
  | [] => none
  | p :: rest => if p.1 = k then some p.2 else getParam rest k

/-- `ShotAPI.buildParams` of the second generation (`src/README.md`
embedded `src/index.ts` lines 511-550).  Each `setIf` line transcribes
one `if (...) params.set(...)` of the source, in source order; note the
`&& !options.device` guards on the explicit `scale` and `mobile`
options. -/
def buildParams (apiKey : String) (o : ScreenshotOptions) : List (String × String) :=
  let ps : List (String × String) := []
  let ps := setParam ps "url" o.url
  let ps := setParam ps "api_key" apiKey
  let ps :=
    if o.device != "" then
      match lookupPreset o.device with
      | some preset =>
        let ps := setParam ps "width" (toString preset.width)
        let ps := setParam ps "height" (toString preset.height)
        let ps := setIf preset.mobile ps "mobile" "true"
        setIf (preset.scaleMilli != 1000) ps "scale" (milliToString preset.scaleMilli)
      | none => ps
    else
      let ps := setIf (optNumTruthy o.width) ps "width" (optNumStr o.width)
      setIf (optNumTruthy o.height) ps "height" (optNumStr o.height)
  let ps := setIf o.fullPage ps "full_page" "true"
  let ps := setIf o.format.isSome ps "format" (optFormatStr o.format)
  let ps := setIf (optNumTruthy o.quality) ps "quality" (optNumStr o.quality)
  let ps := setIf (optNumTruthy o.scale && o.device == "") ps "scale" (optNumStr o.scale)
  let ps := setIf (optNumTruthy o.delay) ps "delay" (optNumStr o.delay)
  let ps := setIf (o.waitForSelector != "") ps "wait_for" o.waitForSelector
  let ps := setIf o.darkMode ps "dark_mode" "true"
  let ps := setIf (o.mobile && o.device == "") ps "mobile" "true"
  let ps := setIf (o.selector != "") ps "selector" o.selector
  let ps := setIf (o.css != "") ps "css" o.css
  let ps := setIf (o.js != "") ps "js" o.js
  let ps := setIf o.blockAds ps "block_ads" "true"
  let ps := setIf o.hideCookieBanners ps "hide_cookie_banners" "true"
  setIf (optNumTruthy o.thumbnailWidth) ps "thumbnail_width" (optNumStr o.thumbnailWidth)

/-- `ShotAPI.buildParams` of the first generation (`src/src/index.ts`
lines 182-221).  Identical to `buildParams` except that the explicit
`scale` and `mobile` options are emitted without the
`&& !options.device` guards, so they can overwrite a preset's values. -/
def buildParamsLegacy (apiKey : String) (o : ScreenshotOptions) : List (String × String) :=
  let ps : List (String × String) := []
  let ps := setParam ps "url" o.url
  let ps := setParam ps "api_key" apiKey
  let ps :=
    if o.device != "" then
      match lookupPreset o.device with
      | some preset =>
        let ps := setParam ps "width" (toString preset.width)
        let ps := setParam ps "height" (toString preset.height)
        let ps := setIf preset.mobile ps "mobile" "true"
        setIf (preset.scaleMilli != 1000) ps "scale" (milliToString preset.scaleMilli)
      | none => ps
    else
      let ps := setIf (optNumTruthy o.width) ps "width" (optNumStr o.width)
      setIf (optNumTruthy o.height) ps "height" (optNumStr o.height)
  let ps := setIf o.fullPage ps "full_page" "true"
  let ps := setIf o.format.isSome ps "format" (optFormatStr o.format)
  let ps := setIf (optNumTruthy o.quality) ps "quality" (optNumStr o.quality)
  let ps := setIf (optNumTruthy o.scale) ps "scale" (optNumStr o.scale)
  let ps := setIf (optNumTruthy o.delay) ps "delay" (optNumStr o.delay)
  let ps := setIf (o.waitForSelector != "") ps "wait_for" o.waitForSelector
  let ps := setIf o.darkMode ps "dark_mode" "true"
  let ps := setIf o.mobile ps "mobile" "true"
  let ps := setIf (o.selector != "") ps "selector" o.selector
  let ps := setIf (o.css != "") ps "css" o.css
  let ps := setIf (o.js != "") ps "js" o.js
  let ps := setIf o.blockAds ps "block_ads" "true"
  let ps := setIf o.hideCookieBanners ps "hide_cookie_banners" "true"
  setIf (optNumTruthy o.thumbnailWidth) ps "thumbnail_width" (optNumStr o.thumbnailWidth)

/-- `ShotAPIException` (second generation, `src/README.md` embedded
`src/index.ts` lines 280-292): message, optional machine code, optional
details, optional HTTP status. -/
structure ShotAPIException where
  message : String
  code : Option String
  details : Option String
  statusCode : Option Nat
deriving DecidableEq, Repr

/-- JavaScript `x || d` for an optional string: `undefined` and `""` both
fall back to the default. -/
def jsOrDefault (x : Option String) (d : String) : String :=
  match x with
  | some s => if s = "" then d else s
  | none => d

/-- `'URL is required'` / `MISSING_URL` error. -/
def missingUrlErr : ShotAPIException :=
  ⟨"URL is required", some "MISSING_URL", none, none⟩

/-- `Invalid URL: ...` / `INVALID_URL` error. -/
def invalidUrlErr (url : String) : ShotAPIException :=
  ⟨"Invalid URL: " ++ url ++ ". URL must start with http:// or https://",
   some "INVALID_URL", none, none⟩

/-- `'Quality must be between 1 and 100'` / `INVALID_QUALITY` error. -/
def invalidQualityErr : ShotAPIException :=
  ⟨"Quality must be between 1 and 100", some "INVALID_QUALITY", none, none⟩

/-- `'Delay must be between 0 and 10000 milliseconds'` / `INVALID_DELAY`
error. -/
def invalidDelayErr : ShotAPIException :=
  ⟨"Delay must be between 0 and 10000 milliseconds", some "INVALID_DELAY", none, none⟩

/-- `'API key is required'` / `MISSING_API_KEY` error. -/
def missingApiKeyErr : ShotAPIException :=
  ⟨"API key is required", some "MISSING_API_KEY", none, none⟩

/-- One character of an RFC 3986 scheme after the first. -/
def isSchemeChar (c : Char) : Bool :=
  c.isAlphanum || c = '+' || c = '-' || c = '.'

/-- Split a character list at the first `':'`, provided every character
before it is a scheme character; `none` when no such split exists. -/
def schemeSplit : List Char → Option (List Char × List Char)
  | [] => none
  | c :: cs =>
    if c = ':' then some ([], cs)
    else if isSchemeChar c then
      match schemeSplit cs with
      | some p => some (c :: p.1, p.2)
      | none => none
    else none

/-- `isValidUrl` (second generation lines 314-321).  The source calls the
WHATWG `new URL(...)` parser and compares `parsed.protocol` against
`'http:'`/`'https:'`.  The embedding models the part of that parser the
check depends on: the input must open with a syntactically valid scheme
before a `':'` (first character alphabetic), the scheme must be `http`
or `https` up to ASCII case, and something nonempty must follow the
`://`-prefix (WHATWG rejects `http://` with an empty host). -/
def isValidUrl (url : String) : Bool :=
  match schemeSplit url.toList with
  | some (scheme, rest) =>
    match scheme with
    | [] => false
    | c :: _ =>
      c.isAlpha &&
      (let s := String.mk (scheme.map Char.toLower)
       (s == "http" || s == "https") && !(rest.dropWhile (fun ch => ch = '/')).isEmpty)
  | none => false

/-- Truthy out-of-range quality test from `screenshot` (second
generation lines 394-401): `options.quality !== undefined` and outside
`[1,100]`. -/
def qualityBad (o : ScreenshotOptions) : Bool :=
  match o.quality with
  | some q => q < 1 || 100 < q
  | none => false

/-- Out-of-range delay test from `screenshot` (second generation lines
404-411): `options.delay !== undefined` and outside `[0,10000]`. -/
def delayBad (o : ScreenshotOptions) : Bool :=
  match o.delay with
  | some d => d < 0 || 10000 < d
  | none => false

/-- The validation prefix of `ShotAPI.screenshot` (second generation
lines 380-415): the four checks in source order, then the built
parameter list that would be handed to `request`.  An `.error` result is
raised before any network access. -/
def screenshotChecked (apiKey : String) (o : ScreenshotOptions) :
    Except ShotAPIException (List (String × String)) :=
  if o.url = "" then .error missingUrlErr
  else if !isValidUrl o.url then .error (invalidUrlErr o.url)
  else if qualityBad o then .error invalidQualityErr
  else if delayBad o then .error invalidDelayErr
  else .ok (buildParams apiKey o)

/-- Abstraction of a JSON document as read by the executor: the three
`ShotAPIError` fields the code projects out (each possibly absent, like
JavaScript `undefined`), plus the raw text to keep distinct success
payloads distinct. -/
structure JsonVal where
  errorField : Option String
  codeField : Option String
  detailsField : Option String
  raw : String
deriving DecidableEq, Repr

/-- An HTTP response body as the executor sees it: either it parses as
JSON or `response.json()` throws. -/
inductive Body where
  | jsonBody (v : JsonVal)
  | malformed
deriving DecidableEq, Repr

/-- Outcome of one `fetch` attempt: a response with status, status text
and body; an abort fired by the timeout controller (`AbortError`); or a
transport-level failure. -/
inductive FetchOutcome where
  | response (status : Nat) (statusText : String) (body : Body)
  | aborted
  | netFailure (message : String)
deriving DecidableEq, Repr

/-- The `ShotAPIException` built for a non-ok response (second
generation lines 572-585): fields default through `||` to the generic
`HTTP <status>: <statusText>` message and the `HTTP_ERROR` code when the
body is not parseable JSON (or lacks the fields). -/
def errorFromResponse (status : Nat) (statusText : String) (body : Body) : ShotAPIException :=
  let errorData : Option JsonVal :=
    match body with
    | .jsonBody v => some v
    | .malformed => none
  ⟨jsOrDefault (errorData.bind JsonVal.errorField) ("HTTP " ++ toString status ++ ": " ++ statusText),
   some (jsOrDefault (errorData.bind JsonVal.codeField) "HTTP_ERROR"),
   errorData.bind JsonVal.detailsField,
   some status⟩

/-- `'Request timeout after <timeout>ms'` / `TIMEOUT` error (second
generation lines 612-616). -/
def timeoutErr (timeoutMs : Nat) : ShotAPIException :=
  ⟨"Request timeout after " ++ toString timeoutMs ++ "ms", some "TIMEOUT", none, none⟩

/-- `NETWORK_ERROR` wrapping of a generic thrown `Error` (second
generation lines 617-622): `error.message || 'Network error'`. -/
def networkErrOf (msg : String) : ShotAPIException :=
  ⟨if msg = "" then "Network error" else msg, some "NETWORK_ERROR", none, none⟩

/-- The `SyntaxError` thrown by `response.json()` on a 2xx response with
an unparseable body lands in the generic `Error` branch and becomes a
`NETWORK_ERROR`; its message text is engine-dependent and is modelled by
a fixed representative. -/
def parseFailErr : ShotAPIException :=
  networkErrOf "Unexpected end of JSON input"

/-- `'Request failed after retries'` / `MAX_RETRIES` defensive fallback
(second generation line 634). -/
def maxRetriesErr : ShotAPIException :=
  ⟨"Request failed after retries", some "MAX_RETRIES", none, none⟩

/-- What one iteration of the retry loop does with its fetch outcome:
return a payload, throw a non-retryable error, or record a retryable
error. -/
inductive AttemptStep where
  | success (v : JsonVal)
  | failFast (e : ShotAPIException)
  | retryable (e : ShotAPIException)
deriving DecidableEq, Repr

/-- Classification of one attempt by `ShotAPI.request` (second
generation lines 563-631): `response.ok` (2xx) returns the parsed body;
a non-ok status builds `errorFromResponse` and throws it when the status
is 4xx, otherwise records it; an abort becomes a retryable `TIMEOUT`; a
transport failure becomes a retryable `NETWORK_ERROR`; a 2xx body that
fails to parse becomes a retryable generic error. -/
def classifyAttempt (timeoutMs : Nat) (out : FetchOutcome) : AttemptStep :=
  match out with
  | .response status statusText body =>
    if 200 ≤ status ∧ status < 300 then
      match body with
      | .jsonBody v => .success v
      | .malformed => .retryable parseFailErr
    else
      let e := errorFromResponse status statusText body
      if 400 ≤ status ∧ status < 500 then .failFast e else .retryable e
  | .aborted => .retryable (timeoutErr timeoutMs)
  | .netFailure m => .retryable (networkErrOf m)

/-- Observable trace of one `ShotAPI.request` call: the backoff sleeps
in milliseconds in order, the number of fetch attempts issued, and the
returned payload or raised error. -/
structure ExecTrace where
  waits : List Nat
  attempts : Nat
  result : Except ShotAPIException JsonVal
deriving Repr

/-- The retry loop of `ShotAPI.request` (second generation lines
555-635).  `env n` is the outcome of the `n`-th fetch; `fuel` counts the
iterations the `for (attempt = 0; attempt <= retries; attempt++)` loop
still has (it starts at `retries + 1`); `lastErr` is the mutable
`lastError`.  A retryable failure sleeps `2 ^ attempt * 1000`
milliseconds when `attempt < retries`; after the last iteration the loop
throws `lastError || maxRetriesErr`. -/
def reqGo (retries timeoutMs : Nat) (env : Nat → FetchOutcome) :
    Nat → Nat → Option ShotAPIException → ExecTrace
  | _, 0, lastErr => ⟨[], 0, .error (lastErr.getD maxRetriesErr)⟩
  | attempt, fuel + 1, _ =>
    match classifyAttempt timeoutMs (env attempt) with
    | .success v => ⟨[], 1, .ok v⟩
    | .failFast e => ⟨[], 1, .error e⟩
    | .retryable e =>
      let waitNow : List Nat := if attempt < retries then [2 ^ attempt * 1000] else []
      let rest := reqGo retries timeoutMs env (attempt + 1) fuel (some e)
      ⟨waitNow ++ rest.waits, rest.attempts + 1, rest.result⟩

/-- `ShotAPI.request`: run the retry loop from attempt 0 with its full
iteration budget and no recorded error. -/
def request (retries timeoutMs : Nat) (env : Nat → FetchOutcome) : ExecTrace :=
  reqGo retries timeoutMs env 0 (retries + 1) none

/-- `ShotAPI.screenshot` end to end: validation first, and the executor
only when validation succeeds — an `.error` from `screenshotChecked`
reaches the caller with zero fetch attempts and zero waits. -/
def screenshotRun (apiKey : String) (retries timeoutMs : Nat) (o : ScreenshotOptions)
    (env : Nat → FetchOutcome) : ExecTrace :=
  match screenshotChecked apiKey o with
  | .error e => ⟨[], 0, .error e⟩
  | .ok _ => request retries timeoutMs env

/-- `ShotAPIConfig` from `types.ts`: every field but the key optional. -/
structure ShotAPIConfig where
  apiKey : String
  baseUrl : Option String := none
  timeout : Option Nat := none
  retries : Option Nat := none
  maxConcurrent : Option Nat := none
deriving DecidableEq, Repr

/-- The immutable client state set up by the `ShotAPI` constructor. -/
structure ShotAPIClient where
  apiKey : String
  baseUrl : String
  timeout : Nat
  retries : Nat
  maxConcurrent : Nat
deriving DecidableEq, Repr

/-- JavaScript `x || d` for an optional number: `undefined` and `0` both
fall back to the default. -/
def jsNumOr (x : Option Nat) (d : Nat) : Nat :=
  match x with
  | some n => if n = 0 then d else n
  | none => d

/-- JavaScript `x ?? d`: only `undefined` falls back to the default. -/
def nullishOr (x : Option Nat) (d : Nat) : Nat :=
  x.getD d

/-- The `ShotAPI` constructor (second generation lines 352-362): a falsy
`apiKey` throws `MISSING_API_KEY`; `baseUrl` and `timeout` default on
truthiness (`||`), while `retries` and `maxConcurrent` default on
nullishness (`??`). -/
def mkShotAPI (config : ShotAPIConfig) : Except ShotAPIException ShotAPIClient :=
  if config.apiKey = "" then .error missingApiKeyErr
  else .ok
    ⟨config.apiKey,
     jsOrDefault config.baseUrl "https://shotapi.dev",
     jsNumOr config.timeout 30000,
     nullishOr config.retries 2,
     nullishOr config.maxConcurrent 5⟩

/-- Observable events of one `ShotAPI.batch` call: a chunk of URLs
issued concurrently, or the fixed pacing sleep between chunks. -/
inductive BatchEvent where
  | chunkIssued (urls : List String)
  | paced (ms : Nat)
deriving DecidableEq, Repr

/-- Trace of one `ShotAPI.batch` call: the events in order and the
returned response list or first raised error. -/
structure BatchTrace (E R : Type) where
  events : List BatchEvent
  result : Except E (List R)
deriving Repr

/-- `Promise.all` over one chunk's screenshots: all of them settle; the
first (in input order) rejection rejects the whole chunk, otherwise the
results are collected in input order. -/
def allSettled {E R : Type} (g : String → Except E R) : List String → Except E (List R)
  | [] => .ok []
  | u :: us =>
    match g u with
    | .error e => .error e
    | .ok r =>
      match allSettled g us with
      | .error e => .error e
      | .ok rs => .ok (r :: rs)

/-- The chunk loop of the second generation's `ShotAPI.batch`
(`src/README.md` embedded `src/index.ts` lines 467-489).  `i` is the
loop index over `urls` and `fuel` bounds the remaining iterations
(`urls.length` iterations always suffice when `C ≥ 1`; the source loop
does not terminate when `maxConcurrent = 0`).  Each iteration issues
`urls.slice(i, i + C)` concurrently, awaits it, and sleeps 100 ms
afterwards exactly when `i + C < urls.length`. -/
def batchGo {E R : Type} (C : Nat) (g : String → Except E R) (urls : List String) :
    Nat → Nat → BatchTrace E R
  | _, 0 => ⟨[], .ok []⟩
  | i, fuel + 1 =>
    if i < urls.length then
      let chunk := (urls.drop i).take C
      match allSettled g chunk with
      | .error e => ⟨[.chunkIssued chunk], .error e⟩
      | .ok rs =>
        let pace : List BatchEvent := if i + C < urls.length then [.paced 100] else []
        let rest := batchGo C g urls (i + C) fuel
        ⟨.chunkIssued chunk :: pace ++ rest.events,
         match rest.result with
         | .error e => .error e
         | .ok more => .ok (rs ++ more)⟩
    else ⟨[], .ok []⟩

/-- `ShotAPI.batch` (second generation): run the chunk loop from index 0. -/
def batchRun {E R : Type} (C : Nat) (g : String → Except E R) (urls : List String) :
    BatchTrace E R :=
  batchGo C g urls 0 urls.length

/-- `ShotAPI.batch` of the first generation (`src/src/index.ts` lines
152-160): a single `Promise.all` over every URL at once — no chunking,
no concurrency ceiling, no pacing delay. -/
def batchLegacy {E R : Type} (g : String → Except E R) (urls : List String) :
    Except E (List R) :=
  allSettled g urls

/-- Partition of a list into consecutive chunks of `C`, fuel-bounded;
`chunkList` instantiates the fuel so that it never runs out for
`C ≥ 1`. -/
def chunkListGo {α : Type} : Nat → Nat → List α → List (List α)
  | 0, _, _ => []
  | fuel + 1, C, l =>
    if l.isEmpty then [] else l.take C :: chunkListGo fuel C (l.drop C)

/-- The specification's "partition the URL list into consecutive chunks
of size ≤ C, preserving original order". -/
def chunkList {α : Type} (C : Nat) (l : List α) : List (List α) :=
  chunkListGo l.length C l

/-- Options of the C1 example: `iphone-14-pro` preset with explicit
`width: 999`, `scale: 2` and `mobile: true` that must all be ignored. -/
def presetClaimOptions : ScreenshotOptions :=
  { url := "https://example.com", width := some 999, device := "iphone-14-pro",
    scale := some 2, mobile := true }

/-- Options of the C10 scenario: an unknown device name together with
explicit viewport options that must all be dropped. -/
def unknownDeviceOptions : ScreenshotOptions :=
  { url := "https://example.com", width := some 999, height := some 700,
    device := "quest-3", scale := some 2, mobile := true }

/-- Options with the claim's first non-`http(s)` URL. -/
def ftpOptions : ScreenshotOptions := { url := "ftp://x" }

/-- Options with the claim's second malformed URL. -/
def notAUrlOptions : ScreenshotOptions := { url := "not a url" }

/-- Options with a valid URL and the given quality. -/
def qualityOptions (q : Int) : ScreenshotOptions :=
  { url := "https://example.com", quality := some q }

/-- Environment answering every fetch with `404 Not Found` and a body
that is not JSON. -/
def notFoundEnv : Nat → FetchOutcome := fun _ => .response 404 "Not Found" .malformed

/-- Whether an attempt outcome is a retryable failure (records a last
error instead of returning or throwing). -/
def isRetryableStep : AttemptStep → Bool
  | .retryable _ => true
  | _ => false

/-! ## Lemmas about parameter lists -/

theorem getParam_nil (k : String) : getParam [] k = none := rfl

theorem setIf_false (ps : List (String × String)) (k v : String) :
    setIf false ps k v = ps := rfl

theorem setIf_true (ps : List (String × String)) (k v : String) :
    setIf true ps k v = setParam ps k v := rfl

theorem getParam_set_self (ps : List (String × String)) (k v : String) :
    getParam (setParam ps k v) k = some v := by
  induction ps with
  | nil => simp [setParam, getParam]
  | cons p rest ih =>
    by_cases hp : p.1 = k
    · simp [setParam, getParam, hp]
    · simp only [setParam, List.any_cons] at *
      by_cases hr : rest.any (fun p => p.1 = k)
      · simp [hp, hr, getParam]
        simpa [setParam, hr] using ih
      · simp [hp, hr, getParam]
        simpa [setParam, hr] using ih

theorem getParam_map_other (ps : List (String × String)) (k v k' : String) (h : k ≠ k') :
    getParam (ps.map (fun p => if p.1 = k then (k, v) else p)) k' = getParam ps k' := by
  induction ps with
  | nil => rfl
  | cons p rest ih =>
    by_cases hp : p.1 = k
    · simp [getParam, hp, h, ih, hp ▸ h]
    · simp [getParam, hp, ih]

theorem getParam_append_other (ps : List (String × String)) (k v k' : String) (h : k ≠ k') :
    getParam (ps ++ [(k, v)]) k' = getParam ps k' := by
  induction ps with
  | nil => simp [getParam, h]
  | cons p rest ih =>
    by_cases hp : p.1 = k'
    · simp [getParam, hp]
    · simp [getParam, hp, ih]

theorem getParam_set_other (ps : List (String × String)) (k v k' : String) (h : k ≠ k') :
    getParam (setParam ps k v) k' = getParam ps k' := by
  unfold setParam
  split
  · exact getParam_map_other ps k v k' h
  · exact getParam_append_other ps k v k' h

theorem getParam_setIf_other (c : Bool) (ps : List (String × String)) (k v k' : String)
    (h : k ≠ k') : getParam (setIf c ps k v) k' = getParam ps k' := by
  cases c
  · rfl
  · exact getParam_set_other ps k v k' h

theorem getParam_eq_none_iff (ps : List (String × String)) (k : String) :
    getParam ps k = none ↔ ∀ p ∈ ps, p.1 ≠ k := by
  induction ps with
  | nil => simp [getParam]
  | cons p rest ih =>
    by_cases hp : p.1 = k
    · simp [getParam, hp]
    · simp [getParam, hp, ih]

theorem map_fst_setParam (ps : List (String × String)) (k v : String) :
    (setParam ps k v).map Prod.fst =
      if ps.any (fun p => p.1 = k) then ps.map Prod.fst else ps.map Prod.fst ++ [k] := by
  unfold setParam
  split
  · simp only [List.map_map, if_true]
    refine List.map_congr_left ?_
    intro p _
    by_cases hp : p.1 = k
    · simp [hp]
    · simp [hp]
  · simp

theorem setParam_keysNodup (ps : List (String × String)) (k v : String)
    (h : (ps.map Prod.fst).Nodup) : ((setParam ps k v).map Prod.fst).Nodup := by
  rw [map_fst_setParam]
  split
  · exact h
  · next hany =>
    have hk : k ∉ ps.map Prod.fst := by
      intro hmem
      rcases List.mem_map.mp hmem with ⟨p, hp, hpk⟩
      exact hany (List.any_eq_true.mpr ⟨p, hp, by simp [hpk]⟩)
    simp [List.nodup_append, h, hk]

theorem setIf_keysNodup (c : Bool) (ps : List (String × String)) (k v : String)
    (h : (ps.map Prod.fst).Nodup) : ((setIf c ps k v).map Prod.fst).Nodup := by
  cases c
  · exact h
  · exact setParam_keysNodup ps k v h

theorem getParam_of_mem (ps : List (String × String)) (k v : String)
    (hnd : (ps.map Prod.fst).Nodup) (hmem : (k, v) ∈ ps) : getParam ps k = some v := by
  induction ps with
  | nil => cases hmem
  | cons p rest ih =>
    rw [List.map_cons, List.nodup_cons] at hnd
    rcases List.mem_cons.mp hmem with hp | hp
    · simp [getParam, ← hp]
    · have hk : p.1 ≠ k := by
        intro hpk
        exact hnd.1 (hpk ▸ List.mem_map.mpr ⟨(k, v), hp, rfl⟩)
      simp only [getParam, hk, if_false]
      exact ih hnd.2 hp

theorem buildParams_keysNodup (apiKey : String) (o : ScreenshotOptions) :
    ((buildParams apiKey o).map Prod.fst).Nodup := by
  unfold buildParams
  refine setIf_keysNodup _ _ _ _ ?_
  refine setIf_keysNodup _ _ _ _ ?_
  refine setIf_keysNodup _ _ _ _ ?_
  refine setIf_keysNodup _ _ _ _ ?_
  refine setIf_keysNodup _ _ _ _ ?_
  refine setIf_keysNodup _ _ _ _ ?_
  refine setIf_keysNodup _ _ _ _ ?_
  refine setIf_keysNodup _ _ _ _ ?_
  refine setIf_keysNodup _ _ _ _ ?_
  refine setIf_keysNodup _ _ _ _ ?_
  refine setIf_keysNodup _ _ _ _ ?_
  refine setIf_keysNodup _ _ _ _ ?_
  refine setIf_keysNodup _ _ _ _ ?_
  refine setIf_keysNodup _ _ _ _ ?_
  have hbase : (((setParam (setParam [] "url" o.url) "api_key" apiKey)).map Prod.fst).Nodup := by
    simp [setParam]
  split
  · split
    · refine setIf_keysNodup _ _ _ _ ?_
      refine setIf_keysNodup _ _ _ _ ?_
      refine setParam_keysNodup _ _ _ ?_
      refine setParam_keysNodup _ _ _ ?_
      exact hbase
    · exact hbase
  · refine setIf_keysNodup _ _ _ _ ?_
    refine setIf_keysNodup _ _ _ _ ?_
    exact hbase

/-! ## Parameter builder theorems -/

/-- Claim C1: whenever a device preset is named in the options, the
built parameters take `width`, `height`, `mobile` and `scale` exclusively
from the preset table entry — the values of the four keys are functions
of the preset alone, with the explicit `width`/`height`/`scale`/`mobile`
options nowhere on the right-hand side — and the `width` key carries no
value other than the preset width (so `width=999` cannot appear for
`iphone-14-pro`, whose entry yields `width=393&height=852&mobile=true&scale=3`). -/
theorem preset_overrides_viewport_options (apiKey : String) (o : ScreenshotOptions)
    (p : DevicePresetConfig) (hdev : o.device ≠ "") (hp : lookupPreset o.device = some p) :
    getParam (buildParams apiKey o) "width" = some (toString p.width) ∧
    getParam (buildParams apiKey o) "height" = some (toString p.height) ∧
    getParam (buildParams apiKey o) "mobile" = (if p.mobile then some "true" else none) ∧
    getParam (buildParams apiKey o) "scale" =
      (if p.scaleMilli = 1000 then none else some (milliToString p.scaleMilli)) ∧
    ∀ v : String, ("width", v) ∈ buildParams apiKey o → v = toString p.width := by
  have hdev1 : (o.device != "") = true := by simp [hdev]
  have hdev2 : (o.device == "") = false := by simp [hdev]
  have hw : getParam (buildParams apiKey o) "width" = some (toString p.width) := by
    simp [buildParams, hdev1, hp, getParam_setIf_other, getParam_set_other, getParam_set_self]
  refine ⟨hw, ?_, ?_, ?_, ?_⟩
  · simp [buildParams, hdev1, hp, getParam_setIf_other, getParam_set_other, getParam_set_self]
  · by_cases hm : p.mobile <;>
      simp [buildParams, hdev2, hdev1, hp, hm, setIf_true, setIf_false, getParam_setIf_other,
        getParam_set_other, getParam_set_self, getParam_nil]
  · by_cases hs : p.scaleMilli = 1000
    · have hs1 : (p.scaleMilli != 1000) = false := by simp [hs]
      simp [buildParams, hdev2, hdev1, hp, hs, hs1, setIf_true, setIf_false, getParam_setIf_other,
        getParam_set_other, getParam_set_self, getParam_nil]
    · have hs1 : (p.scaleMilli != 1000) = true := by simp [hs]
      simp [buildParams, hdev2, hdev1, hp, hs, hs1, setIf_true, setIf_false, getParam_setIf_other,
        getParam_set_other, getParam_set_self, getParam_nil]
  · intro v hv
    have hg := getParam_of_mem (buildParams apiKey o) "width" v
      (buildParams_keysNodup apiKey o) hv
    rw [hw] at hg
    exact (Option.some.inj hg).symm

theorem preset_overrides_viewport_options_witness :
    presetClaimOptions.device ≠ "" ∧
    lookupPreset presetClaimOptions.device = some ⟨393, 852, true, 3000⟩ ∧
    getParam (buildParams "key" presetClaimOptions) "width" = some "393" ∧
    getParam (buildParams "key" presetClaimOptions) "height" = some "852" ∧
    getParam (buildParams "key" presetClaimOptions) "mobile" = some "true" ∧
    getParam (buildParams "key" presetClaimOptions) "scale" = some "3" ∧
    ("width", "999") ∉ buildParams "key" presetClaimOptions := by
  have h := preset_overrides_viewport_options "key" presetClaimOptions ⟨393, 852, true, 3000⟩
    (by decide) (by decide)
  refine ⟨by decide, by decide, h.1.trans (by decide), h.2.1.trans (by decide),
    (h.2.2.1).trans (by decide), (h.2.2.2.1).trans (by decide), ?_⟩
  intro hmem
  have hv := h.2.2.2.2 "999" hmem
  exact absurd hv (by decide)

/-- Claim C10: when `device` is set to a name absent from the preset
table, the preset branch emits nothing, the `else` branch (explicit
`width`/`height`) is skipped because `device` is truthy, and the guarded
explicit `scale`/`mobile` emissions are also skipped, so the built
parameters carry no `width`, `height`, `mobile` or `scale` entry at all. -/
theorem unknown_device_no_viewport_params (apiKey : String) (o : ScreenshotOptions)
    (hdev : o.device ≠ "") (hnone : lookupPreset o.device = none) :
    getParam (buildParams apiKey o) "width" = none ∧
    getParam (buildParams apiKey o) "height" = none ∧
    getParam (buildParams apiKey o) "mobile" = none ∧
    getParam (buildParams apiKey o) "scale" = none ∧
    ∀ kv ∈ buildParams apiKey o,
      kv.1 ≠ "width" ∧ kv.1 ≠ "height" ∧ kv.1 ≠ "mobile" ∧ kv.1 ≠ "scale" := by
  have hdev1 : (o.device != "") = true := by simp [hdev]
  have hdev2 : (o.device == "") = false := by simp [hdev]
  have hw : getParam (buildParams apiKey o) "width" = none := by
    simp [buildParams, hdev1, hdev2, hnone, getParam_setIf_other, getParam_set_other, getParam_nil]
  have hh : getParam (buildParams apiKey o) "height" = none := by
    simp [buildParams, hdev1, hdev2, hnone, getParam_setIf_other, getParam_set_other, getParam_nil]
  have hm : getParam (buildParams apiKey o) "mobile" = none := by
    simp [buildParams, hdev1, hdev2, hnone, setIf_false, getParam_setIf_other, getParam_set_other,
      getParam_nil]
  have hs : getParam (buildParams apiKey o) "scale" = none := by
    simp [buildParams, hdev1, hdev2, hnone, setIf_false, getParam_setIf_other, getParam_set_other,
      getParam_nil]
  refine ⟨hw, hh, hm, hs, ?_⟩
  intro kv hkv
  exact ⟨(getParam_eq_none_iff _ _).mp hw kv hkv, (getParam_eq_none_iff _ _).mp hh kv hkv,
    (getParam_eq_none_iff _ _).mp hm kv hkv, (getParam_eq_none_iff _ _).mp hs kv hkv⟩

theorem unknown_device_no_viewport_params_witness :
    unknownDeviceOptions.device ≠ "" ∧
    lookupPreset unknownDeviceOptions.device = none ∧
    getParam (buildParams "key" unknownDeviceOptions) "width" = none ∧
    getParam (buildParams "key" unknownDeviceOptions) "height" = none ∧
    getParam (buildParams "key" unknownDeviceOptions) "mobile" = none ∧
    getParam (buildParams "key" unknownDeviceOptions) "scale" = none := by
  have h := unknown_device_no_viewport_params "key" unknownDeviceOptions (by decide) (by decide)
  exact ⟨by decide, by decide, h.1, h.2.1, h.2.2.1, h.2.2.2.1⟩

/-- Divergence of the two generations recorded for context: the first
generation's builder lets an explicit `scale: 2` overwrite the
`iphone-14-pro` preset scale, while the second generation's `!options.device`
guard keeps the preset value. -/
theorem legacy_builder_lets_explicit_scale_override_preset :
    getParam (buildParamsLegacy "key"
      { url := "https://example.com", device := "iphone-14-pro", scale := some 2 }) "scale" =
        some "2" ∧
    getParam (buildParams "key"
      { url := "https://example.com", device := "iphone-14-pro", scale := some 2 }) "scale" =
        some "3" := by
  decide

/-! ## Validation theorems -/

/-- Claim C6: whenever the (nonempty) `url` option fails the
`http`/`https` URL check, `screenshot` raises the `INVALID_URL`
validation error with zero fetch attempts and zero waits — before any
network access. -/
theorem invalid_url_rejected_before_network (apiKey : String) (retries timeoutMs : Nat)
    (o : ScreenshotOptions) (env : Nat → FetchOutcome)
    (hne : o.url ≠ "") (hbad : isValidUrl o.url = false) :
    screenshotRun apiKey retries timeoutMs o env = ⟨[], 0, .error (invalidUrlErr o.url)⟩ := by
  simp [screenshotRun, screenshotChecked, hne, hbad]

theorem invalid_url_rejected_before_network_witness :
    isValidUrl "ftp://x" = false ∧
    isValidUrl "not a url" = false ∧
    screenshotRun "key" 2 30000 ftpOptions (fun _ => .aborted) =
      ⟨[], 0, .error (invalidUrlErr "ftp://x")⟩ ∧
    screenshotRun "key" 2 30000 notAUrlOptions (fun _ => .aborted) =
      ⟨[], 0, .error (invalidUrlErr "not a url")⟩ := by
  refine ⟨by decide, by decide, ?_, ?_⟩
  · exact invalid_url_rejected_before_network "key" 2 30000 ftpOptions (fun _ => .aborted)
      (by decide) (by decide)
  · exact invalid_url_rejected_before_network "key" 2 30000 notAUrlOptions (fun _ => .aborted)
      (by decide) (by decide)

/-- Claim C5: with a valid URL, a present `quality` outside `[1,100]`
makes `screenshot` raise the `INVALID_QUALITY` validation error with
zero fetch attempts and zero waits, while any `quality` inside `[1,100]`
passes validation (the checked pipeline reaches the built parameters,
given the remaining `delay` check also passes). -/
theorem quality_range_validation (apiKey : String) (retries timeoutMs : Nat)
    (o : ScreenshotOptions) (env : Nat → FetchOutcome) (q : Int) (hq : o.quality = some q)
    (hne : o.url ≠ "") (hok : isValidUrl o.url = true) :
    ((q < 1 ∨ 100 < q) →
      screenshotRun apiKey retries timeoutMs o env = ⟨[], 0, .error invalidQualityErr⟩) ∧
    (1 ≤ q → q ≤ 100 → delayBad o = false →
      screenshotChecked apiKey o = .ok (buildParams apiKey o)) := by
  constructor
  · intro hrange
    have hqb : qualityBad o = true := by
      simp only [qualityBad, hq]
      rcases hrange with h | h <;> simp [h]
    simp [screenshotRun, screenshotChecked, hne, hok, hqb]
  · intro h1 h2 hd
    have hqb : qualityBad o = false := by
      simp only [qualityBad, hq]
      simp
      omega
    simp [screenshotChecked, hne, hok, hqb, hd]

theorem quality_range_validation_witness :
    screenshotRun "key" 2 30000 (qualityOptions 0) (fun _ => .aborted) =
      ⟨[], 0, .error invalidQualityErr⟩ ∧
    screenshotRun "key" 2 30000 (qualityOptions 101) (fun _ => .aborted) =
      ⟨[], 0, .error invalidQualityErr⟩ ∧
    screenshotRun "key" 2 30000 (qualityOptions (-5)) (fun _ => .aborted) =
      ⟨[], 0, .error invalidQualityErr⟩ ∧
    screenshotChecked "key" (qualityOptions 50) = .ok (buildParams "key" (qualityOptions 50)) := by
  refine ⟨?_, ?_, ?_, ?_⟩
  · exact (quality_range_validation "key" 2 30000 (qualityOptions 0) (fun _ => .aborted) 0
      rfl (by decide) (by decide)).1 (by decide)
  · exact (quality_range_validation "key" 2 30000 (qualityOptions 101) (fun _ => .aborted) 101
      rfl (by decide) (by decide)).1 (by decide)
  · exact (quality_range_validation "key" 2 30000 (qualityOptions (-5)) (fun _ => .aborted) (-5)
      rfl (by decide) (by decide)).1 (by decide)
  · exact (quality_range_validation "key" 2 30000 (qualityOptions 50) (fun _ => .aborted) 50
      rfl (by decide) (by decide)).2 (by decide) (by decide) (by decide)

/-! ## Executor theorems -/

theorem reqGo_retryable_keeps_error (retries timeoutMs : Nat) (env : Nat → FetchOutcome)
    (e : ShotAPIException)
    (hcls : ∀ n, classifyAttempt timeoutMs (env n) = .retryable e) :
    ∀ fuel attempt,
      (reqGo retries timeoutMs env attempt fuel (some e)).result = .error e := by
  intro fuel
  induction fuel with
  | zero =>
    intro attempt
    simp [reqGo]
  | succ f ih =>
    intro attempt
    simp only [reqGo, hcls]
    exact ih (attempt + 1)

theorem request_const_retryable (retries timeoutMs : Nat) (env : Nat → FetchOutcome)
    (e : ShotAPIException)
    (hcls : ∀ n, classifyAttempt timeoutMs (env n) = .retryable e) :
    (request retries timeoutMs env).result = .error e := by
  simp only [request, reqGo, hcls]
  exact reqGo_retryable_keeps_error retries timeoutMs env e hcls retries 1

/-- Claim C2: a 4xx response terminates the retry loop at once, at any
attempt — the loop performs exactly one further fetch, no backoff wait,
and raises the classified error (which carries the 4xx status code) —
and in particular a request whose first response is 4xx makes exactly
one network attempt in total, whatever the shape of the response body. -/
theorem http4xx_never_retried (retries timeoutMs : Nat) (env : Nat → FetchOutcome)
    (s : Nat) (st : String) (b : Body) (h4 : 400 ≤ s) (h5 : s < 500) :
    (∀ attempt fuel lastErr, env attempt = .response s st b →
      reqGo retries timeoutMs env attempt (fuel + 1) lastErr =
        ⟨[], 1, .error (errorFromResponse s st b)⟩) ∧
    (env 0 = .response s st b →
      request retries timeoutMs env = ⟨[], 1, .error (errorFromResponse s st b)⟩) ∧
    (errorFromResponse s st b).statusCode = some s := by
  have hno : ¬(200 ≤ s ∧ s < 300) := by omega
  have hstep : classifyAttempt timeoutMs (.response s st b) =
      .failFast (errorFromResponse s st b) := by
    simp [classifyAttempt, hno, h4, h5]
  refine ⟨?_, ?_, rfl⟩
  · intro attempt fuel lastErr henv
    simp [reqGo, henv, hstep]
  · intro h0
    simp [request, reqGo, h0, hstep]

theorem http4xx_never_retried_witness :
    (400 ≤ 404 ∧ 404 < 500) ∧
    request 2 30000 notFoundEnv =
      ⟨[], 1, .error ⟨"HTTP 404: Not Found", some "HTTP_ERROR", none, some 404⟩⟩ ∧
    (errorFromResponse 404 "Not Found" .malformed).statusCode = some 404 := by
  have h := http4xx_never_retried 2 30000 notFoundEnv 404 "Not Found" .malformed
    (by decide) (by decide)
  refine ⟨by decide, ?_, h.2.2⟩
  exact (h.2.1 rfl).trans (by rfl)

/-- Claim C4: a non-2xx response whose body fails to parse as JSON leads
to an error synthesized from the HTTP status line — message
`HTTP <status>: <statusText>`, code `HTTP_ERROR` — and that is what the
executor raises (4xx) or records as last error and finally surfaces
(other statuses, after exhausting retries); the underlying JSON parse
failure never reaches the caller. -/
theorem unparseable_error_body_yields_generic_error (retries timeoutMs s : Nat) (st : String)
    (hnok : s < 200 ∨ 300 ≤ s) :
    errorFromResponse s st .malformed =
      ⟨"HTTP " ++ toString s ++ ": " ++ st, some "HTTP_ERROR", none, some s⟩ ∧
    (request retries timeoutMs (fun _ => .response s st .malformed)).result =
      .error ⟨"HTTP " ++ toString s ++ ": " ++ st, some "HTTP_ERROR", none, some s⟩ := by
  have hgen : errorFromResponse s st .malformed =
      ⟨"HTTP " ++ toString s ++ ": " ++ st, some "HTTP_ERROR", none, some s⟩ := by
    simp [errorFromResponse, jsOrDefault]
  have hno : ¬(200 ≤ s ∧ s < 300) := by omega
  refine ⟨hgen, ?_⟩
  by_cases h4 : 400 ≤ s ∧ s < 500
  · have hstep : classifyAttempt timeoutMs (.response s st .malformed) =
        .failFast (errorFromResponse s st .malformed) := by
      simp [classifyAttempt, hno, h4]
    simp [request, reqGo, hstep, hgen]
  · have hstep : ∀ n : Nat, classifyAttempt timeoutMs
        ((fun _ => FetchOutcome.response s st .malformed) n) =
        .retryable (errorFromResponse s st .malformed) := by
      intro n
      simp [classifyAttempt, hno, h4]
    have hres := request_const_retryable retries timeoutMs _ _ hstep
    rw [hgen] at hres
    exact hres

theorem unparseable_error_body_yields_generic_error_witness :
    ((500 : Nat) < 200 ∨ 300 ≤ 500) ∧
    (request 1 30000 (fun _ => .response 500 "Internal Server Error" .malformed)).result =
      .error ⟨"HTTP 500: Internal Server Error", some "HTTP_ERROR", none, some 500⟩ ∧
    (request 2 30000 (fun _ => .response 404 "Not Found JSONless" .malformed)).result =
      .error ⟨"HTTP 404: Not Found JSONless", some "HTTP_ERROR", none, some 404⟩ := by
  refine ⟨by decide, ?_, ?_⟩
  · exact ((unparseable_error_body_yields_generic_error 1 30000 500 "Internal Server Error"
      (by decide)).2).trans (by rfl)
  · exact ((unparseable_error_body_yields_generic_error 2 30000 404 "Not Found JSONless"
      (by decide)).2).trans (by rfl)

theorem reqGo_all_retryable_trace (retries timeoutMs : Nat) (env : Nat → FetchOutcome)
    (hr : ∀ i, i ≤ retries → isRetryableStep (classifyAttempt timeoutMs (env i)) = true) :
    ∀ fuel attempt lastErr, attempt + fuel = retries + 1 →
      (reqGo retries timeoutMs env attempt fuel lastErr).waits =
        (List.range' attempt (fuel - 1)).map (fun n => 2 ^ n * 1000) ∧
      (reqGo retries timeoutMs env attempt fuel lastErr).attempts = fuel := by
  intro fuel
  induction fuel with
  | zero =>
    intro attempt lastErr hsum
    simp [reqGo]
  | succ f ih =>
    intro attempt lastErr hsum
    have hle : attempt ≤ retries := by omega
    rcases hcl : classifyAttempt timeoutMs (env attempt) with v | e | e
    · exact absurd (hr attempt hle) (by simp [hcl, isRetryableStep])
    · exact absurd (hr attempt hle) (by simp [hcl, isRetryableStep])
    · rw [reqGo]
      simp only [hcl]
      rcases Nat.eq_zero_or_pos f with hf | hf
      · subst hf
        have hnl : ¬attempt < retries := by omega
        have h0 : reqGo retries timeoutMs env (attempt + 1) 0 (some e) =
            ⟨[], 0, .error e⟩ := by simp [reqGo]
        simp [hnl, h0]
      · have hlt : attempt < retries := by omega
        have hrest := ih (attempt + 1) (some e) (by omega)
        have hf1 : f - 1 + 1 = f := by omega
        constructor
        · simp only [hlt, if_true, Nat.add_sub_cancel]
          rw [hrest.1, ← hf1, List.range'_succ]
          simp [hf1]
        · simp [hrest.2]

/-- Claim C7: while failures stay retryable the executor sleeps exactly
`2 ^ n` seconds after attempt `n` — the wait list of a run whose every
attempt fails retryably is `[2^0, 2^1, ...] * 1000` ms with one entry
per attempt except the last (no wait after the final attempt) — and a
`retries = 2` run seeing 503, 503, then 200 returns the 200 payload
after waiting 1000 ms and then 2000 ms. -/
theorem exponential_backoff_between_attempts (retries timeoutMs : Nat)
    (env : Nat → FetchOutcome)
    (hr : ∀ i, i ≤ retries → isRetryableStep (classifyAttempt timeoutMs (env i)) = true) :
    (request retries timeoutMs env).waits = (List.range retries).map (fun n => 2 ^ n * 1000) ∧
    (request retries timeoutMs env).attempts = retries + 1 ∧
    ∀ (b1 b2 : Body) (st1 st2 st3 : String) (v : JsonVal),
      request 2 timeoutMs (fun n =>
        if n = 0 then .response 503 st1 b1
        else if n = 1 then .response 503 st2 b2
        else .response 200 st3 (.jsonBody v)) = ⟨[1000, 2000], 3, .ok v⟩ := by
  have h := reqGo_all_retryable_trace retries timeoutMs env hr (retries + 1) 0 none (by omega)
  refine ⟨?_, h.2, ?_⟩
  · rw [request, h.1]
    simp [List.range_eq_range']
  · intro b1 b2 st1 st2 st3 v
    have h503 : ¬((200 ≤ 503 ∧ 503 < 300) : Prop) := by omega
    have h503b : ¬((400 ≤ 503 ∧ 503 < 500) : Prop) := by omega
    simp [request, reqGo, classifyAttempt, h503, h503b]

theorem exponential_backoff_between_attempts_witness :
    (request 2 30000 (fun _ => .aborted)).waits = [1000, 2000] ∧
    (request 2 30000 (fun _ => .aborted)).attempts = 2 + 1 ∧
    request 2 30000 (fun n =>
        if n = 0 then .response 503 "Service Unavailable" (.jsonBody ⟨some "overloaded", none, none, "e1"⟩)
        else if n = 1 then .response 503 "Service Unavailable" .malformed
        else .response 200 "OK" (.jsonBody ⟨none, none, none, "payload"⟩)) =
      ⟨[1000, 2000], 3, .ok ⟨none, none, none, "payload"⟩⟩ := by
  have h := exponential_backoff_between_attempts 2 30000 (fun _ => .aborted)
    (fun i _ => by simp [classifyAttempt, isRetryableStep])
  exact ⟨h.1.trans (by decide), h.2.1,
    h.2.2 (.jsonBody ⟨some "overloaded", none, none, "e1"⟩) .malformed
      "Service Unavailable" "Service Unavailable" "OK" ⟨none, none, none, "payload"⟩⟩

/-- Claim C9: constructor defaulting is asymmetric — `retries: 0`
survives (`??`), so the executor makes exactly one attempt and never
waits, while `timeout: 0` and `baseUrl: ''` are falsy and silently fall
back to 30000 ms and the production base URL (`||`). -/
theorem constructor_default_asymmetry (k : String) (hk : k ≠ "") :
    mkShotAPI ⟨k, some "", some 0, some 0, none⟩ =
      .ok ⟨k, "https://shotapi.dev", 30000, 0, 5⟩ ∧
    ∀ (timeoutMs : Nat) (env : Nat → FetchOutcome),
      (request 0 timeoutMs env).attempts = 1 ∧ (request 0 timeoutMs env).waits = [] := by
  constructor
  · simp [mkShotAPI, hk, jsOrDefault, jsNumOr, nullishOr]
  · intro t env
    rcases hcl : classifyAttempt t (env 0) with v | e | e <;>
      simp [request, reqGo, hcl]

theorem constructor_default_asymmetry_witness :
    ("key" : String) ≠ "" ∧
    mkShotAPI ⟨"key", some "", some 0, some 0, none⟩ =
      .ok ⟨"key", "https://shotapi.dev", 30000, 0, 5⟩ ∧
    (request 0 7 (fun _ => .aborted)).attempts = 1 ∧
    (request 0 7 (fun _ => .aborted)).waits = [] := by
  have h := constructor_default_asymmetry "key" (by decide)
  exact ⟨by decide, h.1, (h.2 7 (fun _ => .aborted)).1, (h.2 7 (fun _ => .aborted)).2⟩

/-! ## Batch coordinator theorems -/

theorem allSettled_map {E R : Type} (f : String → R) (l : List String) :
    allSettled (fun u => (Except.ok (f u) : Except E R)) l = .ok (l.map f) := by
  induction l with
  | nil => rfl
  | cons u us ih => simp [allSettled, ih]

theorem allSettled_isOk {E R : Type} (g : String → Except E R) (l : List String)
    (hg : ∀ u ∈ l, ∃ r, g u = .ok r) : ∃ rs, allSettled g l = .ok rs := by
  induction l with
  | nil => exact ⟨[], rfl⟩
  | cons u us ih =>
    obtain ⟨r, hr⟩ := hg u (by simp)
    obtain ⟨rs, hrs⟩ := ih (fun v hv => hg v (by simp [hv]))
    exact ⟨r :: rs, by simp [allSettled, hr, hrs]⟩

theorem chunkListGo_fuel {α : Type} (C : Nat) (hC : 1 ≤ C) :
    ∀ (f1 f2 : Nat) (l : List α), l.length ≤ f1 → l.length ≤ f2 →
      chunkListGo f1 C l = chunkListGo f2 C l := by
  intro f1
  induction f1 with
  | zero =>
    intro f2 l h1 h2
    have hl : l = [] := List.eq_nil_of_length_eq_zero (by omega)
    subst hl
    cases f2 <;> rfl
  | succ f ih =>
    intro f2 l h1 h2
    rcases l with _ | ⟨x, xs⟩
    · cases f2 <;> rfl
    · rcases f2 with _ | f2
      · simp at h2
      · have hd : ((x :: xs).drop C).length ≤ f := by
          simp only [List.length_drop, List.length_cons] at *
          omega
        have hd2 : ((x :: xs).drop C).length ≤ f2 := by
          simp only [List.length_drop, List.length_cons] at *
          omega
        simp only [chunkListGo, List.isEmpty_cons, ih ((x :: xs).drop C).length]
        rw [ih f2 _ hd hd2]

theorem chunkList_ne (C : Nat) {α : Type} (hC : 1 ≤ C) (l : List α) (hl : l ≠ []) :
    chunkList C l = l.take C :: chunkList C (l.drop C) := by
  rcases l with _ | ⟨x, xs⟩
  · exact absurd rfl hl
  · show chunkListGo (x :: xs).length C (x :: xs) = _
    rw [List.length_cons, chunkListGo]
    simp only [List.isEmpty_cons, Bool.false_eq_true, if_false]
    congr 1
    exact chunkListGo_fuel C hC xs.length ((x :: xs).drop C).length ((x :: xs).drop C)
      (by simp only [List.length_drop, List.length_cons]; omega) (le_refl _)

theorem chunkList_flatten {α : Type} (C : Nat) (hC : 0 < C) (l : List α) :
    (chunkList C l).flatten = l := by
  have main : ∀ (n : Nat) (l : List α), l.length ≤ n → (chunkList C l).flatten = l := by
    intro n
    induction n with
    | zero =>
      intro l hl
      have : l = [] := List.eq_nil_of_length_eq_zero (by omega)
      subst this
      rfl
    | succ n ih =>
      intro l hl
      by_cases hnil : l = []
      · subst hnil; rfl
      · have hpos : 0 < l.length := List.length_pos.mpr hnil
        rw [chunkList_ne C hC l hnil, List.flatten_cons,
          ih (l.drop C) (by simp only [List.length_drop]; omega)]
        exact List.take_append_drop C l
  exact main l.length l (le_refl _)

theorem chunkList_chunks {α : Type} (C : Nat) (hC : 0 < C) (l : List α) :
    ∀ ch ∈ chunkList C l, ch.length ≤ C ∧ ch ≠ [] := by
  have main : ∀ (n : Nat) (l : List α), l.length ≤ n →
      ∀ ch ∈ chunkList C l, ch.length ≤ C ∧ ch ≠ [] := by
    intro n
    induction n with
    | zero =>
      intro l hl ch hch
      have : l = [] := List.eq_nil_of_length_eq_zero (by omega)
      subst this
      cases hch
    | succ n ih =>
      intro l hl ch hch
      by_cases hnil : l = []
      · subst hnil; cases hch
      · have hpos : 0 < l.length := List.length_pos.mpr hnil
        rw [chunkList_ne C hC l hnil] at hch
        rcases List.mem_cons.mp hch with hch | hch
        · subst hch
          constructor
          · simp [List.length_take]
          · simp only [ne_eq, List.take_eq_nil_iff]
            push_neg
            exact ⟨by omega, hnil⟩
        · exact ih (l.drop C)
            (by simp only [List.length_drop]; omega) ch hch
  exact main l.length l (le_refl _)

theorem batchGo_events_of_ok {E R : Type} (C : Nat) (hC : 0 < C) (g : String → Except E R)
    (urls : List String) (hg : ∀ u ∈ urls, ∃ r, g u = .ok r) :
    ∀ (fuel i : Nat), urls.length - i ≤ fuel →
      (batchGo C g urls i fuel).events =
        List.intersperse (.paced 100) ((chunkList C (urls.drop i)).map .chunkIssued) := by
  intro fuel
  induction fuel with
  | zero =>
    intro i hi
    have hdrop : urls.drop i = [] := List.drop_eq_nil_of_le (by omega)
    simp [batchGo, hdrop, chunkList, chunkListGo]
  | succ fuel ih =>
    intro i hi
    by_cases hlt : i < urls.length
    · have hsub : ∀ u ∈ (urls.drop i).take C, u ∈ urls := by
        intro u hu
        exact List.drop_subset i urls (List.take_subset _ _ hu)
      obtain ⟨rs, hrs⟩ := allSettled_isOk g _ (fun u hu => hg u (hsub u hu))
      have hne : urls.drop i ≠ [] := by
        rw [ne_eq, List.drop_eq_nil_iff]
        omega
      rw [batchGo]
      simp only [hlt, if_true, hrs]
      rw [chunkList_ne C hC _ hne, List.drop_drop]
      by_cases hnext : i + C < urls.length
      · have hne2 : urls.drop (i + C) ≠ [] := by
          rw [ne_eq, List.drop_eq_nil_iff]
          omega
        have hchne : chunkList C (urls.drop (i + C)) ≠ [] := by
          rw [chunkList_ne C hC _ hne2]
          simp
        rcases hck : chunkList C (urls.drop (i + C)) with _ | ⟨c0, cs⟩
        · exact absurd hck hchne
        · simp only [hnext, if_true, ih (i + C) (by omega), hck, List.map_cons,
            List.intersperse_cons_cons]
          simp
      · have hnil2 : urls.drop (i + C) = [] := List.drop_eq_nil_of_le (by omega)
        simp [hnext, hnil2, ih (i + C) (by omega), chunkList, chunkListGo]
    · have hdrop : urls.drop i = [] := List.drop_eq_nil_of_le (by omega)
      rw [batchGo]
      simp [hlt, hdrop, chunkList, chunkListGo]

theorem batchGo_result_map {E R : Type} (C : Nat) (hC : 0 < C) (f : String → R)
    (urls : List String) :
    ∀ (fuel i : Nat), urls.length - i ≤ fuel →
      (batchGo C (fun u => (Except.ok (f u) : Except E R)) urls i fuel).result =
        .ok ((urls.drop i).map f) := by
  intro fuel
  induction fuel with
  | zero =>
    intro i hi
    have hdrop : urls.drop i = [] := List.drop_eq_nil_of_le (by omega)
    simp [batchGo, hdrop]
  | succ fuel ih =>
    intro i hi
    by_cases hlt : i < urls.length
    · rw [batchGo]
      simp only [hlt, if_true, allSettled_map]
      rw [ih (i + C) (by omega)]
      have hsplit : (urls.drop i).take C ++ urls.drop (i + C) = urls.drop i := by
        rw [← List.drop_drop]
        exact List.take_append_drop C (urls.drop i)
      simp [← List.map_append, hsplit]
    · have hdrop : urls.drop i = [] := List.drop_eq_nil_of_le (by omega)
      rw [batchGo]
      simp [hlt, hdrop]

/-- Claim C3: for a positive concurrency ceiling `C` (the source loop
does not advance when `maxConcurrent = 0`) and per-URL requests that all
succeed, `batch` issues exactly the consecutive ≤`C`-sized chunks of the
URL list in original order, awaiting each chunk before the next, with a
single fixed 100 ms pacing sleep between consecutive chunks and none
after the last — the event trace is the chunk list interspersed with
`paced 100`, and the chunks partition the input. -/
theorem batch_chunking_and_pacing {E R : Type} (C : Nat) (hC : 0 < C)
    (g : String → Except E R) (urls : List String)
    (hg : ∀ u ∈ urls, ∃ r, g u = .ok r) :
    (batchRun C g urls).events =
      List.intersperse (.paced 100) ((chunkList C urls).map .chunkIssued) ∧
    (chunkList C urls).flatten = urls ∧
    ∀ ch ∈ chunkList C urls, ch.length ≤ C ∧ ch ≠ [] := by
  refine ⟨?_, chunkList_flatten C hC urls, chunkList_chunks C hC urls⟩
  have h := batchGo_events_of_ok C hC g urls hg urls.length 0 (by omega)
  simpa [batchRun] using h

theorem batch_chunking_and_pacing_witness :
    (0 : Nat) < 2 ∧
    (batchRun 2 (fun u => (Except.ok u : Except Unit String))
        ["a", "b", "c", "d", "e", "f"]).events =
      [.chunkIssued ["a", "b"], .paced 100, .chunkIssued ["c", "d"], .paced 100,
       .chunkIssued ["e", "f"]] ∧
    (chunkList 2 ["a", "b", "c", "d", "e", "f"]).flatten = ["a", "b", "c", "d", "e", "f"] := by
  have h := batch_chunking_and_pacing 2 (by decide)
    (fun u => (Except.ok u : Except Unit String)) ["a", "b", "c", "d", "e", "f"]
    (fun u _ => ⟨u, rfl⟩)
  exact ⟨by decide, h.1.trans (by decide), h.2.1⟩

/-- Claim C8: when every per-URL request succeeds, `batch` returns one
response per input URL with the response at index `i` produced for the
URL at index `i` — the result is exactly the input list mapped through
the per-URL responder, independently of any completion interleaving
inside a chunk (`Promise.all` reassembles by input position). -/
theorem batch_preserves_input_order {E R : Type} (C : Nat) (hC : 0 < C) (f : String → R)
    (urls : List String) :
    (batchRun C (fun u => (Except.ok (f u) : Except E R)) urls).result = .ok (urls.map f) := by
  have h := batchGo_result_map (E := E) C hC f urls urls.length 0 (by omega)
  simpa [batchRun] using h

theorem batch_preserves_input_order_witness :
    (0 : Nat) < 2 ∧
    (batchRun 2 (fun u => (Except.ok (u ++ "!") : Except Unit String))
        ["a", "b", "c", "d", "e", "f"]).result =
      .ok ["a!", "b!", "c!", "d!", "e!", "f!"] := by
  have h := batch_preserves_input_order (E := Unit) 2 (by decide) (fun u => u ++ "!")
    ["a", "b", "c", "d", "e", "f"]
  exact ⟨by decide, h.trans (by rfl)⟩
